import Mathlib

/-!
Shallow embedding of the zevals core evaluation pipeline
(`packages/core/src`): the message model (`message.ts`), criteria and
combinators (`criteria/criterion.ts`), scenario segments (`segment.ts`)
and the eval runner (`eval-runner.ts`).

Modelling conventions:
* Promises are modelled as their resolved values: every external call
  (agent, synthetic user, criterion evaluation) is a total Lean function,
  so a `Promise<T>` that the code eventually awaits is embedded as `T`.
* A thrown error / rejected promise that aborts the run is modelled with
  `Except String`.
* JavaScript object reference identity for criteria (the runner compares
  `r.criterion === criterion`) is modelled by an explicit identity token
  `id : Nat`, as suggested by the spec's design notes ("an explicit
  per-run registry mapping an opaque identity token ... avoiding reliance
  on language-level reference equality"). Combinators, which in the source
  build a fresh object literal (hence a fresh reference), take the fresh
  token explicitly.
-/

/-- A tool call carried by an assistant message (`message.ts`, `ToolCall`):
`id?`, `name`, `args` and an optional `result`.  The JS `Record<string,
unknown>` payloads are modelled as association lists of strings. -/
structure ToolCall where
  id : Option String
  name : String
  args : List (String × String)
  result : Option (List (String × String))

mutual

/-- The transcript message model (`message.ts`): a tagged union of the
system, user, assistant and tool-result roles.  Assistant messages carry
optional tool calls and an optional generation context. -/
inductive Message : Type where
  | system (content : String) : Message
  | user (content : String) : Message
  | assistant (content : String) (tool_calls : List ToolCall)
      (context : Option AgentResponseGenerationContext) : Message
  | tool (tool_call_id : Option String) (name : String)
      (content : List (String × String)) : Message

/-- The context used by the agent to generate a response (`message.ts`,
`AgentResponseGenerationContext`): the prompt messages and the tool calls
made by the LLM, both optional. -/
inductive AgentResponseGenerationContext : Type where
  | mk (prompt_used : Option (List Message))
      (tool_calls : Option (List ToolCall)) : AgentResponseGenerationContext

end

/-- An assistant message (`message.ts`, `AIMessage`) as a record, as it is
produced by the agent under test. -/
structure AIMessage where
  content : String
  tool_calls : List ToolCall
  context : Option AgentResponseGenerationContext

/-- Injects an `AIMessage` record into the `Message` union (in TypeScript
`AIMessage` is definitionally one arm of `Message`). -/
def AIMessage.toMessage (m : AIMessage) : Message :=
  Message.assistant m.content m.tool_calls m.context

/-- A user message (`message.ts`, `UserMessage`). -/
structure UserMessage where
  content : String

/-- The determined statuses of a criterion result (`criterion.ts`,
`status?: 'success' | 'failure'`); absence of a status is `Option.none`
at the use sites. -/
inductive Status : Type where
  | success : Status
  | failure : Status
deriving DecidableEq, Repr

/-- The result of a criterion evaluation (`criterion.ts`,
`CriterionResult<Output>`): output payload, optional reason, optional
captured error (modelled as a string), optional status. -/
structure CriterionResult (γ : Type) where
  output : γ
  reason : Option String
  error : Option String
  status : Option Status

/-- A named evaluator over a message sequence (`criterion.ts`,
`Criterion<Output>`).  `id` is the opaque identity token standing for JS
object reference identity (see module conventions). -/
structure Criterion (γ : Type) where
  id : Nat
  name : String
  evaluate : List Message → CriterionResult γ

/-- The `negate` combinator (`criterion.ts`, `Criterion.negate`): spreads
the original criterion (same `name`), replacing `evaluate` so that the
result keeps all fields but flips a `success` status to `failure` and a
`failure` status to `success`, leaving any other status unchanged.
`freshId` is the identity token of the fresh object literal the source
builds. -/
def Criterion.negate {γ : Type} (c : Criterion γ) (freshId : Nat) : Criterion γ :=
  { id := freshId
    name := c.name
    evaluate := fun params =>
      let result := c.evaluate params
      { result with
        status :=
          if result.status = some Status.success then some Status.failure
          else if result.status = some Status.failure then some Status.success
          else result.status } }

/-- Keeps the reasons that are present and non-empty, as JS
`[r1, r2].filter(Boolean)` does on `(string | undefined)` values. -/
def presentReasons (r1 r2 : Option String) : List String :=
  (([r1, r2].filterMap id).filter (fun s => s != ""))

/-- The `and` combinator (`criterion.ts`, `Criterion.and`): evaluates both
criteria on the same messages, names itself with `" AND "`, pairs the
outputs, joins the present reasons with `" AND "`, and is `success` iff
both sides report `success`, else `failure`.  `freshId` is the identity
token of the fresh object literal. -/
def Criterion.and {α β : Type} (c1 : Criterion α) (c2 : Criterion β)
    (freshId : Nat) : Criterion (α × β) :=
  { id := freshId
    name := c1.name ++ " AND " ++ c2.name
    evaluate := fun params =>
      let result1 := c1.evaluate params
      let result2 := c2.evaluate params
      { output := (result1.output, result2.output)
        reason := some (String.intercalate " AND " (presentReasons result1.reason result2.reason))
        error := none
        status :=
          some (if result1.status = some Status.success ∧ result2.status = some Status.success
            then Status.success else Status.failure) } }

/-- The `pipe` combinator (`criterion.ts`, `Criterion.pipe`): preserves
all result fields, transforming only `output` through `fn`.  `freshId` is
the identity token of the fresh object literal. -/
def Criterion.pipe {α β : Type} (c : Criterion α) (fn : α → β)
    (freshId : Nat) : Criterion β :=
  { id := freshId
    name := c.name
    evaluate := fun params =>
      let result := c.evaluate params
      { output := fn result.output
        reason := result.reason
        error := result.error
        status := result.status } }

/-- Status transformation described by the spec for `negate`: success and
failure are swapped, an undetermined (missing) status is left unchanged. -/
def statusFlip : Option Status → Option Status
  | some Status.success => some Status.failure
  | some Status.failure => some Status.success
  | none => none

/-- The synthetic user (`segment.ts`, `SyntheticUser`): `respond` maps the
(role-swapped) message view to the next user message.  Modelled as a total
function, per the promise convention. -/
def SyntheticUser : Type := List Message → UserMessage

/-- The agent's invocation result (`agent.ts`, `AgentInvocationResult`):
the final assistant message returned to the user. -/
structure AgentInvocationResult where
  message : AIMessage

/-- The agent under test (`agent.ts`, `Agent.invoke`), modelled as a total
function from the transcript to its invocation result. -/
def Agent : Type := List Message → AgentInvocationResult

/-- One entry emitted by a segment (`segment.ts`,
`SegmentEvaluationPromise`): either a literal message, or a criterion
evaluation paired with the criterion instance that produced it.  The
`evalResult` promise is embedded as its resolved value. -/
inductive SegmentEvaluationPromise (γ : Type) : Type where
  | message (message : Message) : SegmentEvaluationPromise γ
  | eval (criterion : Criterion γ) (evalResult : CriterionResult γ) :
      SegmentEvaluationPromise γ

/-- A resolved entry (`eval-runner.ts`, `EvaluatedSegment`).  Because
promises are embedded as resolved values, this type coincides with
`SegmentEvaluationPromise`; the runner's `Promise.all` resolution pass is
the identity here. -/
abbrev EvaluatedSegment (γ : Type) : Type := SegmentEvaluationPromise γ

/-- A scenario step (`segment.ts`, `Segment`): given the agent and the
messages accumulated so far, produce entries to append, or abort
(`Except.error`) for a thrown error. -/
structure Segment (γ : Type) where
  evaluate : Agent → List Message →
    Except String (List (SegmentEvaluationPromise γ))

/-- The message-only flattening used throughout (`flatMap((m) =>
m.type === 'message' ? [m.message] : [])`). -/
def flattenMessages {γ : Type} (l : List (SegmentEvaluationPromise γ)) :
    List Message :=
  l.flatMap fun e => match e with
    | SegmentEvaluationPromise.message m => [m]
    | SegmentEvaluationPromise.eval _ _ => []

/-- The `message` segment (`segment.ts`, `message`): simply adds the given
message to the evaluation history. -/
def message {γ : Type} (msg : Message) : Segment γ :=
  ⟨fun _ _ => Except.ok [SegmentEvaluationPromise.message msg]⟩

/-- The `agentResponse` segment (`segment.ts`, `agentResponse`): invokes
the agent on the previous actual messages and appends its response. -/
def agentResponse {γ : Type} : Segment γ :=
  ⟨fun agent previousActualMessages =>
    Except.ok [SegmentEvaluationPromise.message
      (agent previousActualMessages).message.toMessage]⟩

/-- The `aiEval` segment (`segment.ts`, `aiEval`): throws when no messages
precede it, otherwise emits one eval entry carrying the criterion's
evaluation of the transcript so far, paired with the criterion. -/
def aiEval {γ : Type} (criterion : Criterion γ) : Segment γ :=
  ⟨fun _ previousActualMessages =>
    if previousActualMessages.length = 0 then
      Except.error "Criterion evaluation appears before any messages"
    else
      Except.ok [SegmentEvaluationPromise.eval criterion
        (criterion.evaluate previousActualMessages)]⟩

/-- The role-swapping view built inline in `userSimulation` for the
synthetic user: user messages become assistant messages with the same
content, assistant messages become user messages with the same content,
and any other message contributes nothing. -/
def respondView (messages : List Message) : List Message :=
  messages.flatMap fun m => match m with
    | Message.user c => [Message.assistant c [] none]
    | Message.assistant c _ _ => [Message.user c]
    | _ => []

/-- The `userSimulation` loop body (`segment.ts`, `userSimulation`), one
Lean recursion per `for` iteration: recompute the transcript from
`previousActualMessages` plus the accumulated message entries, obtain the
synthetic user's reply on the role-swapped view, append it, invoke the
agent, append its response, evaluate the break condition, and return
early (appending the resolved eval entry) on success or on the last
allowed iteration. -/
def userSimLoop {γ : Type} (user : SyntheticUser) (agent : Agent)
    (untl : Criterion γ) (previousActualMessages : List Message)
    (maxIterations : Int) (i : Int)
    (acc : List (SegmentEvaluationPromise γ)) :
    List (SegmentEvaluationPromise γ) :=
  if h : i < maxIterations then
    let messages := previousActualMessages ++ flattenMessages acc
    let userResponse := user (respondView messages)
    let acc1 := acc ++ [SegmentEvaluationPromise.message
      (Message.user userResponse.content)]
    let messages1 := messages ++ [Message.user userResponse.content]
    let agentResult := agent messages1
    let acc2 := acc1 ++ [SegmentEvaluationPromise.message
      agentResult.message.toMessage]
    let messages2 := messages1 ++ [agentResult.message.toMessage]
    let breakConditionResult := untl.evaluate messages2
    if breakConditionResult.status = some Status.success then
      acc2 ++ [SegmentEvaluationPromise.eval untl breakConditionResult]
    else if i = maxIterations - 1 then
      acc2 ++ [SegmentEvaluationPromise.eval untl breakConditionResult]
    else
      userSimLoop user agent untl previousActualMessages maxIterations
        (i + 1) acc2
  else acc
termination_by (maxIterations - i).toNat
decreasing_by simp_wf; omega

/-- The `userSimulation` segment (`segment.ts`, `userSimulation`): runs
the loop for `max ?? 10` iterations starting at index `0` with an empty
accumulator.  `untl` models the `until` parameter. -/
def userSimulation {γ : Type} (user : SyntheticUser) (untl : Criterion γ)
    (max : Option Int) : Segment γ :=
  ⟨fun agent previousActualMessages =>
    Except.ok (userSimLoop user agent untl previousActualMessages
      (max.getD 10) 0 [])⟩

/-- Modelled from the spec: the repository's `groupBy` helper is imported
from `src/packages/core/src/utils.ts`, which is absent from the provided
sources.  Per the spec (section 4.4), `resultsByStatus` exposes buckets
keyed by status and a bucket with no entries is empty (in particular the
`failure` bucket's length is read even when no eval failed), so `groupBy`
is modelled as bucket lookup: the sub-list of items whose key equals the
requested key, in order. -/
def groupBy {α κ : Type} [BEq κ] (l : List α) (key : α → κ) (k : κ) :
    List α :=
  l.filter fun a => key a == k

/-- Keys of the `resultsByStatus` record: the two determined statuses plus
the `'unknown'` fallback key that appears in `eval-runner.ts`. -/
inductive StatusKey : Type where
  | success : StatusKey
  | failure : StatusKey
  | unknown : StatusKey
deriving DecidableEq, Repr

instance : BEq StatusKey := instBEqOfDecidableEq

/-- The grouping key of `eval-runner.ts`: `r.evalResult.status ??
'unknown'`. -/
def statusKey : Option Status → StatusKey
  | some Status.success => StatusKey.success
  | some Status.failure => StatusKey.failure
  | none => StatusKey.unknown

/-- The report produced by the runner (`eval-runner.ts`, the object
returned by `evaluate`): its `results` field; the other exposed fields
are functions of it. -/
structure Report (γ : Type) where
  results : List (EvaluatedSegment γ)

/-- Evaluation results grouped by status (`eval-runner.ts`,
`resultsByStatus`): eval entries with a present (truthy) status, grouped
by `status ?? 'unknown'`. -/
def Report.resultsByStatus {γ : Type} (r : Report γ) (k : StatusKey) :
    List (EvaluatedSegment γ) :=
  groupBy
    (r.results.filter fun e => match e with
      | SegmentEvaluationPromise.eval _ res => res.status.isSome
      | SegmentEvaluationPromise.message _ => false)
    (fun e => match e with
      | SegmentEvaluationPromise.eval _ res => statusKey res.status
      | SegmentEvaluationPromise.message _ => StatusKey.unknown)
    k

/-- Resulting messages (`eval-runner.ts`, `messages`): the message-only
flattening of all emitted entries. -/
def Report.messages {γ : Type} (r : Report γ) : List Message :=
  flattenMessages r.results

/-- True if no evals failed (`eval-runner.ts`, `success:
resultsByStatus.failure.length === 0`). -/
def Report.success {γ : Type} (r : Report γ) : Bool :=
  (r.resultsByStatus StatusKey.failure).length == 0

/-- All evaluation results for a criterion instance, by identity token
(`eval-runner.ts`, `getResults`). -/
def Report.getResults {γ : Type} (r : Report γ) (criterion : Criterion γ) :
    List (CriterionResult γ) :=
  r.results.flatMap fun e => match e with
    | SegmentEvaluationPromise.eval c res =>
        if c.id == criterion.id then [res] else []
    | SegmentEvaluationPromise.message _ => []

/-- First result of a criterion instance or none (`eval-runner.ts`,
`getResult`). -/
def Report.getResult {γ : Type} (r : Report γ) (criterion : Criterion γ) :
    Option (CriterionResult γ) :=
  match r.results.find? (fun e => match e with
    | SegmentEvaluationPromise.eval c _ => c.id == criterion.id
    | SegmentEvaluationPromise.message _ => false) with
  | some (SegmentEvaluationPromise.eval _ res) => some res
  | _ => none

/-- First result of a criterion instance, throwing a lookup error naming
the criterion when absent (`eval-runner.ts`, `getResultOrThrow`). -/
def Report.getResultOrThrow {γ : Type} (r : Report γ)
    (criterion : Criterion γ) : Except String (CriterionResult γ) :=
  match r.getResult criterion with
  | some res => Except.ok res
  | none => Except.error ("Cannot find results for criterion " ++ criterion.name)

/-- The runner's segment loop (`eval-runner.ts`, the `for` loop in
`evaluate`): each segment receives the message-only flattening of all
entries emitted so far; its entries are appended; a thrown error aborts
the run. -/
def runSegments {γ : Type} (agent : Agent) :
    List (Segment γ) → List (SegmentEvaluationPromise γ) →
    Except String (List (SegmentEvaluationPromise γ))
  | [], acc => Except.ok acc
  | seg :: rest, acc =>
    match seg.evaluate agent (flattenMessages acc) with
    | Except.error e => Except.error e
    | Except.ok segmentResult => runSegments agent rest (acc ++ segmentResult)

/-- The runner (`eval-runner.ts`, `evaluate`): drives the segments in
order and packages the resolved entries as the report.  The final
`Promise.all` resolution pass is the identity under the promise
convention. -/
def evaluate {γ : Type} (agent : Agent) (segments : List (Segment γ)) :
    Except String (Report γ) :=
  (runSegments agent segments []).map Report.mk

/-- Appending entry lists flattens to the appended message lists. -/
theorem flattenMessages_append {γ : Type} (a b : List (SegmentEvaluationPromise γ)) :
    flattenMessages (a ++ b) = flattenMessages a ++ flattenMessages b := by
  simp [flattenMessages]

/-- Flattening no entries yields no messages. -/
theorem flattenMessages_nil {γ : Type} :
    flattenMessages ([] : List (SegmentEvaluationPromise γ)) = [] := rfl

/-- A concrete agent used to instantiate theorems: always replies with the
assistant message "ok". -/
def agentW : Agent := fun _ => ⟨⟨"ok", [], none⟩⟩

/-- A concrete synthetic user used to instantiate theorems: always replies
"hi". -/
def userW : SyntheticUser := fun _ => ⟨"hi"⟩

/-- A concrete criterion that always reports failure. -/
def critFail : Criterion Unit :=
  ⟨0, "always-fail", fun _ => ⟨(), none, none, some Status.failure⟩⟩

/-- A concrete criterion that never determines a status. -/
def critNone : Criterion String :=
  ⟨1, "no-status", fun _ => ⟨"", none, none, none⟩⟩

/-- A concrete criterion that always reports success with a reason. -/
def critOk : Criterion String :=
  ⟨2, "always-ok", fun _ => ⟨"out", some "fine", none, some Status.success⟩⟩

/-- C6: for all criteria and messages, `and(c1, c2)` has status `success`
iff both sides report `success` and `failure` otherwise (any non-success
status, including undetermined, yields failure), its name is
`"c1.name AND c2.name"`, its output is the pair of both outputs, and its
reason is the `" AND "`-joined concatenation of the present non-empty
reasons. -/
theorem and_criterion_spec {α β : Type} (c1 : Criterion α) (c2 : Criterion β)
    (freshId : Nat) (ms : List Message) :
    (Criterion.and c1 c2 freshId).name = c1.name ++ " AND " ++ c2.name ∧
    ((Criterion.and c1 c2 freshId).evaluate ms).output =
      ((c1.evaluate ms).output, (c2.evaluate ms).output) ∧
    ((Criterion.and c1 c2 freshId).evaluate ms).reason =
      some (String.intercalate " AND "
        (presentReasons (c1.evaluate ms).reason (c2.evaluate ms).reason)) ∧
    ((Criterion.and c1 c2 freshId).evaluate ms).status =
      some (if (c1.evaluate ms).status = some Status.success ∧
          (c2.evaluate ms).status = some Status.success
        then Status.success else Status.failure) ∧
    (((Criterion.and c1 c2 freshId).evaluate ms).status = some Status.success ↔
      (c1.evaluate ms).status = some Status.success ∧
        (c2.evaluate ms).status = some Status.success) := by
  refine ⟨rfl, rfl, rfl, rfl, ?_⟩
  by_cases hc : (c1.evaluate ms).status = some Status.success ∧
      (c2.evaluate ms).status = some Status.success
  · simp [Criterion.and, hc]
  · simp [Criterion.and, hc]

/-- C7: `negate` keeps the name and output, maps a `success` status to
`failure`, `failure` to `success` and leaves an undetermined status
unchanged; hence double negation yields the same status as the original
criterion on the same messages. -/
theorem negate_involutive_status {α : Type} (c : Criterion α) (f1 f2 : Nat)
    (ms : List Message) :
    (Criterion.negate c f1).name = c.name ∧
    ((Criterion.negate c f1).evaluate ms).output = (c.evaluate ms).output ∧
    ((Criterion.negate c f1).evaluate ms).status =
      statusFlip ((c.evaluate ms).status) ∧
    ((Criterion.negate (Criterion.negate c f1) f2).evaluate ms).status =
      (c.evaluate ms).status := by
  refine ⟨rfl, rfl, ?_, ?_⟩
  · rcases h : (c.evaluate ms).status with _ | s
    · simp [Criterion.negate, statusFlip, h]
    · cases s <;> simp [Criterion.negate, statusFlip, h]
  · rcases h : (c.evaluate ms).status with _ | s
    · simp [Criterion.negate, h]
    · cases s <;> simp [Criterion.negate, h]

/-- C5: `aiEval` on an empty previous-message list throws (an aborting
error), and on a non-empty list returns exactly one eval entry pairing the
criterion with its evaluation of the transcript so far. -/
theorem aiEval_spec {γ : Type} (c : Criterion γ) (agent : Agent)
    (prev : List Message) :
    (aiEval c).evaluate agent [] =
      Except.error "Criterion evaluation appears before any messages" ∧
    (prev ≠ [] → (aiEval c).evaluate agent prev =
      Except.ok [SegmentEvaluationPromise.eval c (c.evaluate prev)]) := by
  constructor
  · simp [aiEval]
  · intro h
    simp only [aiEval]
    rw [if_neg]
    simpa [List.length_eq_zero] using h

/-- Witness for C5 at a concrete criterion and transcript. -/
theorem aiEval_spec_witness :
    (aiEval critFail).evaluate agentW [] =
      Except.error "Criterion evaluation appears before any messages" ∧
    (aiEval critFail).evaluate agentW [Message.user "hi"] =
      Except.ok [SegmentEvaluationPromise.eval critFail
        (critFail.evaluate [Message.user "hi"])] :=
  ⟨(aiEval_spec critFail agentW [Message.user "hi"]).1,
    (aiEval_spec critFail agentW [Message.user "hi"]).2 (by simp)⟩

/-- C10: `userSimulation` with a non-positive `max` returns no entries at
all — no messages and no eval entry for the `until` criterion — and a run
consisting of only that segment yields a report with no results, on which
`getResults until` is empty. -/
theorem userSimulation_nonpositive_max {γ : Type} (user : SyntheticUser)
    (untl : Criterion γ) (agent : Agent) (prev : List Message) (mx : Int)
    (hmx : mx ≤ 0) :
    (userSimulation user untl (some mx)).evaluate agent prev =
      Except.ok [] ∧
    evaluate agent [userSimulation user untl (some mx)] =
      Except.ok (Report.mk []) ∧
    Report.getResults (Report.mk ([] : List (EvaluatedSegment γ))) untl = [] := by
  have hloop : ∀ ms : List Message,
      userSimLoop user agent untl ms mx 0 [] = [] := by
    intro ms
    rw [userSimLoop]
    rw [dif_neg (by omega)]
  refine ⟨?_, ?_, rfl⟩
  · simp [userSimulation, hloop]
  · simp [evaluate, runSegments, userSimulation, hloop, flattenMessages,
      Except.map]

/-- Witness for C10 at `max = 0`. -/
theorem userSimulation_nonpositive_max_witness :
    (userSimulation userW critFail (some 0)).evaluate agentW [] =
      Except.ok [] ∧
    evaluate agentW [userSimulation userW critFail (some 0)] =
      Except.ok (Report.mk []) ∧
    Report.getResults (Report.mk ([] : List (EvaluatedSegment Unit))) critFail = [] :=
  userSimulation_nonpositive_max userW critFail agentW [] 0 (by decide)

/-- Running only `message` segments appends exactly their message entries. -/
theorem runSegments_messages {γ : Type} (agent : Agent) (msgs : List Message)
    (acc : List (SegmentEvaluationPromise γ)) :
    runSegments agent (msgs.map (message (γ := γ))) acc =
      Except.ok (acc ++ msgs.map SegmentEvaluationPromise.message) := by
  induction msgs generalizing acc with
  | nil => simp [runSegments]
  | cons m t ih => simp [runSegments, message, ih]

/-- Flattening pure message entries recovers the messages. -/
theorem flattenMessages_map_message {γ : Type} (msgs : List Message) :
    flattenMessages (msgs.map (SegmentEvaluationPromise.message (γ := γ))) = msgs := by
  induction msgs with
  | nil => rfl
  | cons m t ih => simp [flattenMessages] at ih ⊢; exact ih

/-- Each status bucket is the filter of the results on the matching key,
computed once for every key. -/
theorem resultsByStatus_eq_filter {γ : Type} (rs : List (EvaluatedSegment γ))
    (k : StatusKey) :
    Report.resultsByStatus (Report.mk rs) k = rs.filter (fun e => match e with
      | SegmentEvaluationPromise.eval _ res =>
          (statusKey res.status == k) && res.status.isSome
      | SegmentEvaluationPromise.message _ => false) := by
  simp only [Report.resultsByStatus, groupBy]
  rw [List.filter_filter]
  apply List.filter_congr
  intro e _
  cases e with
  | message m => simp
  | eval c res => rfl

/-- C4 helper: no message-only entry passes the status filter. -/
theorem resultsByStatus_map_message {γ : Type} (msgs : List Message)
    (k : StatusKey) :
    Report.resultsByStatus
      (Report.mk (msgs.map (SegmentEvaluationPromise.message (γ := γ)))) k = [] := by
  rw [resultsByStatus_eq_filter]
  rw [List.filter_eq_nil_iff]
  intro e he
  obtain ⟨m, -, rfl⟩ := List.mem_map.mp he
  simp

/-- C4: a scenario of only `message(...)` segments produces exactly those
messages in order, empty success and failure buckets, and `success`; and
in general `success` is true iff the failure bucket is empty, also when
there are no eval entries at all. -/
theorem message_only_scenario {γ : Type} (agent : Agent) (msgs : List Message)
    (r : Report γ) :
    evaluate agent (msgs.map (message (γ := γ))) =
      Except.ok (Report.mk (msgs.map SegmentEvaluationPromise.message)) ∧
    Report.messages
      (Report.mk (msgs.map (SegmentEvaluationPromise.message (γ := γ)))) = msgs ∧
    Report.resultsByStatus
      (Report.mk (msgs.map (SegmentEvaluationPromise.message (γ := γ))))
      StatusKey.success = [] ∧
    Report.resultsByStatus
      (Report.mk (msgs.map (SegmentEvaluationPromise.message (γ := γ))))
      StatusKey.failure = [] ∧
    Report.success
      (Report.mk (msgs.map (SegmentEvaluationPromise.message (γ := γ)))) = true ∧
    (Report.success r = true ↔ r.resultsByStatus StatusKey.failure = []) := by
  refine ⟨?_, ?_, ?_, ?_, ?_, ?_⟩
  · simp [evaluate, runSegments_messages, Except.map]
  · simp [Report.messages, flattenMessages_map_message]
  · exact resultsByStatus_map_message msgs StatusKey.success
  · exact resultsByStatus_map_message msgs StatusKey.failure
  · simp [Report.success, resultsByStatus_map_message]
  · simp [Report.success, List.length_eq_zero]

/-- C3 amended: `resultsByStatus` groups exactly the eval entries having a
determined status by that status; eval entries whose status is missing
appear in no bucket, and the `unknown` bucket is always empty. -/
theorem resultsByStatus_buckets {γ : Type} (r : Report γ) :
    r.resultsByStatus StatusKey.success = r.results.filter (fun e => match e with
      | SegmentEvaluationPromise.eval _ res => res.status == some Status.success
      | SegmentEvaluationPromise.message _ => false) ∧
    r.resultsByStatus StatusKey.failure = r.results.filter (fun e => match e with
      | SegmentEvaluationPromise.eval _ res => res.status == some Status.failure
      | SegmentEvaluationPromise.message _ => false) ∧
    r.resultsByStatus StatusKey.unknown = [] := by
  rcases r with ⟨rs⟩
  refine ⟨?_, ?_, ?_⟩
  · rw [resultsByStatus_eq_filter]
    apply List.filter_congr
    intro e _
    cases e with
    | message m => rfl
    | eval c res =>
      obtain ⟨o, re, er, st⟩ := res
      rcases st with _ | s
      · simp [statusKey]
      · cases s <;> simp [statusKey]
  · rw [resultsByStatus_eq_filter]
    apply List.filter_congr
    intro e _
    cases e with
    | message m => rfl
    | eval c res =>
      obtain ⟨o, re, er, st⟩ := res
      rcases st with _ | s
      · simp [statusKey]
      · cases s <;> simp [statusKey]
  · rw [resultsByStatus_eq_filter]
    rw [List.filter_eq_nil_iff]
    intro e _
    cases e with
    | message m => simp
    | eval c res =>
      obtain ⟨o, re, er, st⟩ := res
      rcases st with _ | s
      · simp [statusKey]
      · cases s <;> simp [statusKey]

/-- The run used as C3's counterexample: a literal user message followed by
an `aiEval` of a criterion that determines no status. -/
def c3report : Except String (Report String) :=
  evaluate agentW [message (Message.user "hi"), aiEval critNone]

/-- The three buckets of the counterexample run, unknown first. -/
def c3buckets : Except String (List (EvaluatedSegment String) ×
    List (EvaluatedSegment String) × List (EvaluatedSegment String)) :=
  c3report.map fun r => (r.resultsByStatus StatusKey.unknown,
    r.resultsByStatus StatusKey.success, r.resultsByStatus StatusKey.failure)

/-- The recorded results of the counterexample run's criterion. -/
def c3untilResults : Except String (List (CriterionResult String)) :=
  c3report.map fun r => r.getResults critNone

/-- C3 counterexample: on this run the criterion's undetermined evaluation
is recorded in the results (its `getResults` returns it), yet every bucket
of `resultsByStatus` — the `unknown` bucket included — is empty, so a
resolved eval entry is absent from all buckets. -/
theorem resultsByStatus_unknown_counterexample :
    c3buckets = Except.ok ([], [], []) ∧
    c3untilResults = Except.ok [⟨"", none, none, none⟩] := by
  constructor <;> rfl

/-- C9: a criterion instance for which the run recorded no eval entry has
an empty `getResults` list and no `getResult`, and `getResultOrThrow`
raises the lookup error naming the criterion; lookup is by the identity
token that models reference identity. -/
theorem lookup_never_evaluated {γ : Type} (r : Report γ) (c : Criterion γ)
    (h : ∀ c' res, SegmentEvaluationPromise.eval c' res ∈ r.results →
      c'.id ≠ c.id) :
    r.getResults c = [] ∧ r.getResult c = none ∧
    r.getResultOrThrow c =
      Except.error ("Cannot find results for criterion " ++ c.name) := by
  rcases r with ⟨rs⟩
  have hres : Report.getResults (Report.mk rs) c = [] := by
    simp only [Report.getResults]
    rw [List.flatMap_eq_nil_iff]
    intro e he
    cases e with
    | message m => rfl
    | eval c' res =>
      have hid : c'.id ≠ c.id := h c' res he
      simp [hid]
  have hfind : List.find? (fun e => match e with
      | SegmentEvaluationPromise.eval c' _ => c'.id == c.id
      | SegmentEvaluationPromise.message _ => false) rs = none := by
    rw [List.find?_eq_none]
    intro e he
    cases e with
    | message m => simp
    | eval c' res =>
      have hid : c'.id ≠ c.id := h c' res he
      simp [hid]
  have hget : Report.getResult (Report.mk rs) c = none := by
    simp only [Report.getResult, hfind]
  refine ⟨hres, hget, ?_⟩
  simp only [Report.getResultOrThrow, hget]

/-- Witness for C9: a report holding a message and another criterion's
eval entry yields empty lookups for the never-evaluated criterion. -/
theorem lookup_never_evaluated_witness :
    Report.getResults (Report.mk [SegmentEvaluationPromise.message (Message.user "hi"),
      SegmentEvaluationPromise.eval critNone ⟨"", none, none, none⟩]) critOk = [] ∧
    Report.getResult (Report.mk [SegmentEvaluationPromise.message (Message.user "hi"),
      SegmentEvaluationPromise.eval critNone ⟨"", none, none, none⟩]) critOk = none ∧
    Report.getResultOrThrow (Report.mk [SegmentEvaluationPromise.message (Message.user "hi"),
      SegmentEvaluationPromise.eval critNone ⟨"", none, none, none⟩]) critOk =
      Except.error ("Cannot find results for criterion " ++ critOk.name) := by
  refine lookup_never_evaluated _ critOk ?_
  intro c' res hmem
  simp only [List.mem_cons, List.not_mem_nil, or_false] at hmem
  rcases hmem with h1 | h2
  · exact absurd h1 (by simp)
  · injection h2 with hc _
    subst hc
    decide

/-- The transcript of the simulated conversation after `j` completed
iterations of the `userSimulation` loop, starting from the previous
actual messages: each iteration appends the synthetic user's reply to the
role-swapped view and then the agent's response. -/
def simMessages (user : SyntheticUser) (agent : Agent) (prev : List Message) :
    Nat → List Message
  | 0 => prev
  | j + 1 =>
    let ms := simMessages user agent prev j
    let uc := (user (respondView ms)).content
    (ms ++ [Message.user uc]) ++ [(agent (ms ++ [Message.user uc])).message.toMessage]

/-- The two messages contributed by iteration `j + 1` of the loop: the
synthetic user's message and the agent's response. -/
def simStepMessages (user : SyntheticUser) (agent : Agent)
    (prev : List Message) (j : Nat) : List Message :=
  let ms := simMessages user agent prev j
  let uc := (user (respondView ms)).content
  [Message.user uc, (agent (ms ++ [Message.user uc])).message.toMessage]

/-- The two message entries emitted by iteration `j + 1` of the loop. -/
def simStepEntries (γ : Type) (user : SyntheticUser) (agent : Agent)
    (prev : List Message) (j : Nat) : List (SegmentEvaluationPromise γ) :=
  (simStepMessages user agent prev j).map SegmentEvaluationPromise.message

/-- The message entries emitted by iterations `a + 1` through `a + n` of
the loop. -/
def genEntries (γ : Type) (user : SyntheticUser) (agent : Agent)
    (prev : List Message) : Nat → Nat → List (SegmentEvaluationPromise γ)
  | _, 0 => []
  | a, n + 1 =>
    simStepEntries γ user agent prev a ++ genEntries γ user agent prev (a + 1) n

/-- One loop iteration extends the transcript by its two step messages. -/
theorem simMessages_succ (user : SyntheticUser) (agent : Agent)
    (prev : List Message) (j : Nat) :
    simMessages user agent prev (j + 1) =
      simMessages user agent prev j ++ simStepMessages user agent prev j := by
  simp [simMessages, simStepMessages]

/-- Step entries flatten to the step messages. -/
theorem flattenMessages_simStepEntries (γ : Type) (user : SyntheticUser)
    (agent : Agent) (prev : List Message) (j : Nat) :
    flattenMessages (simStepEntries γ user agent prev j) =
      simStepMessages user agent prev j :=
  flattenMessages_map_message _

/-- Iterating from `i` for `n` steps extends the transcript by the
flattened generated entries. -/
theorem simMessages_add (γ : Type) (user : SyntheticUser) (agent : Agent)
    (prev : List Message) (i n : Nat) :
    simMessages user agent prev (i + n) =
      simMessages user agent prev i ++
        flattenMessages (genEntries γ user agent prev i n) := by
  induction n generalizing i with
  | zero => simp [genEntries, flattenMessages]
  | succ n ih =>
    rw [show i + (n + 1) = (i + 1) + n by omega, ih (i + 1)]
    rw [simMessages_succ]
    simp [genEntries, flattenMessages_append, flattenMessages_simStepEntries]

/-- The generated entries of `n` iterations are `n` alternating pairs of a
synthetic-user message and an agent message. -/
theorem genEntries_pairs (γ : Type) (user : SyntheticUser) (agent : Agent)
    (prev : List Message) (a n : Nat) :
    ∃ pairs : List (String × AIMessage), pairs.length = n ∧
      genEntries γ user agent prev a n = pairs.flatMap (fun q =>
        [SegmentEvaluationPromise.message (Message.user q.1),
         SegmentEvaluationPromise.message q.2.toMessage]) := by
  induction n generalizing a with
  | zero => exact ⟨[], rfl, rfl⟩
  | succ n ih =>
    obtain ⟨ps, hlen, hE⟩ := ih (a + 1)
    refine ⟨((user (respondView (simMessages user agent prev a))).content,
      (agent (simMessages user agent prev a ++
        [Message.user (user (respondView (simMessages user agent prev a))).content])).message) :: ps,
      by simp [hlen], ?_⟩
    simp [genEntries, hE, simStepEntries, simStepMessages]

/-- Flattening pair entries yields the pairs' messages. -/
theorem flattenMessages_pairs (γ : Type) (ps : List (String × AIMessage)) :
    flattenMessages (ps.flatMap fun q =>
      [SegmentEvaluationPromise.message (Message.user q.1),
       SegmentEvaluationPromise.message (γ := γ) q.2.toMessage]) =
      ps.flatMap fun q => [Message.user q.1, q.2.toMessage] := by
  induction ps with
  | nil => rfl
  | cons p t ih => simp [flattenMessages] at ih ⊢; exact ih

/-- Pair entries number two per pair. -/
theorem pairs_flatMap_length (γ : Type) (ps : List (String × AIMessage)) :
    (ps.flatMap fun q =>
      [SegmentEvaluationPromise.message (Message.user q.1),
       SegmentEvaluationPromise.message (γ := γ) q.2.toMessage]).length =
      2 * ps.length := by
  induction ps with
  | nil => rfl
  | cons p t ih => simp [ih]; omega

/-- The role swap described by the spec: user messages become assistant
messages with the same content, assistant messages become user messages
with the same content, system and tool messages are dropped, preserving
order. -/
def specRoleSwap (messages : List Message) : List Message :=
  messages.filterMap fun m => match m with
    | Message.user c => some (Message.assistant c [] none)
    | Message.assistant c _ _ => some (Message.user c)
    | Message.system _ => none
    | Message.tool _ _ _ => none

/-- The view built by the loop coincides with the spec's role swap. -/
theorem respondView_eq_specRoleSwap (ms : List Message) :
    respondView ms = specRoleSwap ms := by
  induction ms with
  | nil => rfl
  | cons m t ih =>
    cases m <;> simp [respondView, specRoleSwap] at ih ⊢ <;> exact ih

/-- C8: in every iteration of `userSimulation`, the list handed to the
synthetic user is exactly the transcript so far with user and assistant
roles swapped (same contents) and system/tool messages dropped, in order:
the inline view equals the spec's role swap, and iteration `j + 1` of the
simulated run extends the transcript with the user's reply to precisely
that swapped view, followed by the agent's response. -/
theorem userSim_respond_view_swapped (user : SyntheticUser) (agent : Agent)
    (prev : List Message) (j : Nat) (ms : List Message) :
    respondView ms = specRoleSwap ms ∧
    simMessages user agent prev (j + 1) =
      simMessages user agent prev j ++
        [Message.user (user (specRoleSwap (simMessages user agent prev j))).content,
         (agent (simMessages user agent prev j ++
           [Message.user (user (specRoleSwap
             (simMessages user agent prev j))).content])).message.toMessage] := by
  constructor
  · exact respondView_eq_specRoleSwap ms
  · rw [simMessages_succ]
    simp [simStepMessages, respondView_eq_specRoleSwap]

/-- One unfolding of the loop at a Nat index whose transcript invariant
holds: the iteration contributes its step entries and evaluates the break
condition on the extended transcript. -/
theorem userSimLoop_step_nat {γ : Type} (user : SyntheticUser) (agent : Agent)
    (untl : Criterion γ) (prev : List Message) (maxIter : Int) (j : Nat)
    (acc : List (SegmentEvaluationPromise γ)) (hlt : (j : Int) < maxIter)
    (hinv : prev ++ flattenMessages acc = simMessages user agent prev j) :
    userSimLoop user agent untl prev maxIter (j : Int) acc =
      if (untl.evaluate (simMessages user agent prev (j + 1))).status =
          some Status.success then
        (acc ++ simStepEntries γ user agent prev j) ++
          [SegmentEvaluationPromise.eval untl
            (untl.evaluate (simMessages user agent prev (j + 1)))]
      else if (j : Int) = maxIter - 1 then
        (acc ++ simStepEntries γ user agent prev j) ++
          [SegmentEvaluationPromise.eval untl
            (untl.evaluate (simMessages user agent prev (j + 1)))]
      else userSimLoop user agent untl prev maxIter ((j : Int) + 1)
        (acc ++ simStepEntries γ user agent prev j) := by
  rw [userSimLoop, dif_pos hlt]
  simp [hinv, simMessages_succ, simStepEntries, simStepMessages]

/-- Loop unrolling when the break condition first succeeds after `k` total
iterations: starting at index `j` with `n = k - j` iterations left, the
loop emits the step entries of iterations `j + 1 .. k` and then the
resolved successful evaluation. -/
theorem userSimLoop_success_aux {γ : Type} (user : SyntheticUser)
    (agent : Agent) (untl : Criterion γ) (prev : List Message)
    (maxIter : Int) (k : Nat)
    (hsucc : (untl.evaluate (simMessages user agent prev k)).status =
      some Status.success)
    (hkm : (k : Int) ≤ maxIter) :
    ∀ n j acc, j + n = k → 1 ≤ n →
      (∀ m : Nat, j < m → m < k →
        (untl.evaluate (simMessages user agent prev m)).status ≠
          some Status.success) →
      prev ++ flattenMessages acc = simMessages user agent prev j →
      userSimLoop user agent untl prev maxIter (j : Int) acc =
        acc ++ genEntries γ user agent prev j n ++
          [SegmentEvaluationPromise.eval untl
            (untl.evaluate (simMessages user agent prev k))] := by
  intro n
  induction n with
  | zero => intro j acc _ h1; exact absurd h1 (by omega)
  | succ n ih =>
    intro j acc hjk _ hfail hinv
    have hlt : (j : Int) < maxIter := by omega
    rw [userSimLoop_step_nat user agent untl prev maxIter j acc hlt hinv]
    by_cases hn : n = 0
    · subst hn
      have hk : j + 1 = k := by omega
      rw [hk, if_pos hsucc]
      simp [genEntries]
    · have hne : (untl.evaluate (simMessages user agent prev (j + 1))).status ≠
          some Status.success := hfail (j + 1) (by omega) (by omega)
      rw [if_neg hne]
      rw [if_neg (by omega : ¬((j : Int) = maxIter - 1))]
      rw [show ((j : Int) + 1) = (((j + 1 : Nat) : Int)) by omega]
      rw [ih (j + 1) (acc ++ simStepEntries γ user agent prev j) (by omega)
        (by omega) (fun m hm1 hm2 => hfail m (by omega) hm2) ?_]
      · simp [genEntries]
      · rw [flattenMessages_append, ← List.append_assoc, hinv,
          flattenMessages_simStepEntries, ← simMessages_succ]

/-- Loop unrolling when the break condition never succeeds up to the
iteration bound: starting at index `j` with `n = maxIter - j` iterations
left, the loop emits the step entries of all remaining iterations and
then the resolved final (non-success) evaluation. -/
theorem userSimLoop_exhaust_aux {γ : Type} (user : SyntheticUser)
    (agent : Agent) (untl : Criterion γ) (prev : List Message)
    (maxIter : Int)
    (hfail : ∀ m : Nat,
      (untl.evaluate (simMessages user agent prev m)).status ≠
        some Status.success) :
    ∀ (n j : Nat) acc, (j : Int) + (n : Int) = maxIter → 1 ≤ n →
      prev ++ flattenMessages acc = simMessages user agent prev j →
      userSimLoop user agent untl prev maxIter (j : Int) acc =
        acc ++ genEntries γ user agent prev j n ++
          [SegmentEvaluationPromise.eval untl
            (untl.evaluate (simMessages user agent prev (j + n)))] := by
  intro n
  induction n with
  | zero => intro j acc _ h1; exact absurd h1 (by omega)
  | succ n ih =>
    intro j acc hjm _ hinv
    have hlt : (j : Int) < maxIter := by omega
    rw [userSimLoop_step_nat user agent untl prev maxIter j acc hlt hinv]
    rw [if_neg (hfail (j + 1))]
    by_cases hn : n = 0
    · subst hn
      rw [if_pos (by omega : (j : Int) = maxIter - 1)]
      simp [genEntries]
    · rw [if_neg (by omega : ¬((j : Int) = maxIter - 1))]
      rw [show ((j : Int) + 1) = (((j + 1 : Nat) : Int)) by omega]
      rw [ih (j + 1) (acc ++ simStepEntries γ user agent prev j) (by omega)
        (by omega) ?_]
      · rw [show j + 1 + n = j + (n + 1) by omega]
        simp [genEntries]
      · rw [flattenMessages_append, ← List.append_assoc, hinv,
          flattenMessages_simStepEntries, ← simMessages_succ]

/-- C1: `userSimulation` with `max = N` (default 10, here `N ≥ 1`) and an
`until` criterion that never evaluates to success returns without
throwing exactly `N` alternating synthetic-user/agent message pairs
(`2N` message entries) followed by exactly one eval entry whose resolved
result is the last `until` evaluation — taken on the full transcript —
and whose status is not success. -/
theorem userSimulation_exhaust {γ : Type} (user : SyntheticUser)
    (agent : Agent) (untl : Criterion γ) (prev : List Message)
    (mx : Option Int) (hpos : 1 ≤ mx.getD 10)
    (hfail : ∀ ms : List Message,
      (untl.evaluate ms).status ≠ some Status.success) :
    ∃ pairs : List (String × AIMessage), ∃ res : CriterionResult γ,
      pairs.length = (mx.getD 10).toNat ∧
      (userSimulation user untl mx).evaluate agent prev =
        Except.ok (pairs.flatMap (fun q =>
          [SegmentEvaluationPromise.message (Message.user q.1),
           SegmentEvaluationPromise.message q.2.toMessage]) ++
          [SegmentEvaluationPromise.eval untl res]) ∧
      (pairs.flatMap (fun q =>
        [SegmentEvaluationPromise.message (Message.user q.1),
         SegmentEvaluationPromise.message (γ := γ) q.2.toMessage])).length =
        2 * (mx.getD 10).toNat ∧
      res = untl.evaluate (prev ++ pairs.flatMap (fun q =>
        [Message.user q.1, q.2.toMessage])) ∧
      res.status ≠ some Status.success := by
  obtain ⟨ps, hlen, hE⟩ :=
    genEntries_pairs γ user agent prev 0 (mx.getD 10).toNat
  have hloop := userSimLoop_exhaust_aux user agent untl prev (mx.getD 10)
    (fun m => hfail _) (mx.getD 10).toNat 0 [] (by omega) (by omega)
    (by simp [simMessages, flattenMessages])
  simp only [Nat.zero_add] at hloop
  have hsim := simMessages_add γ user agent prev 0 (mx.getD 10).toNat
  simp only [Nat.zero_add] at hsim
  rw [hE, flattenMessages_pairs] at hsim
  refine ⟨ps, untl.evaluate (simMessages user agent prev (mx.getD 10).toNat),
    hlen, ?_, ?_, ?_, hfail _⟩
  · simp only [userSimulation]
    rw [show (0 : Int) = ((0 : Nat) : Int) by simp]
    rw [hloop, hE]
    simp
  · rw [pairs_flatMap_length, hlen]
  · rw [hsim]
    rfl

/-- Witness for C1: a constant synthetic user/agent and an always-failing
criterion with `max = 2`. -/
theorem userSimulation_exhaust_witness :
    ∃ pairs : List (String × AIMessage), ∃ res : CriterionResult Unit,
      pairs.length = ((some (2 : Int)).getD 10).toNat ∧
      (userSimulation userW critFail (some 2)).evaluate agentW [] =
        Except.ok (pairs.flatMap (fun q =>
          [SegmentEvaluationPromise.message (Message.user q.1),
           SegmentEvaluationPromise.message q.2.toMessage]) ++
          [SegmentEvaluationPromise.eval critFail res]) ∧
      (pairs.flatMap (fun q =>
        [SegmentEvaluationPromise.message (Message.user q.1),
         SegmentEvaluationPromise.message (γ := Unit) q.2.toMessage])).length =
        2 * ((some (2 : Int)).getD 10).toNat ∧
      res = critFail.evaluate ([] ++ pairs.flatMap (fun q =>
        [Message.user q.1, q.2.toMessage])) ∧
      res.status ≠ some Status.success :=
  userSimulation_exhaust userW agentW critFail [] (some 2) (by decide)
    (fun ms => by simp [critFail])

/-- C2: `userSimulation` whose `until` first succeeds after `k` complete
iterations (`1 ≤ k ≤ max`) returns exactly `k` alternating
synthetic-user/agent message pairs (`2k` message entries) followed by
exactly one eval entry carrying that successful evaluation, contributing
nothing for the iterations after `k`. -/
theorem userSimulation_first_success {γ : Type} (user : SyntheticUser)
    (agent : Agent) (untl : Criterion γ) (prev : List Message)
    (mx : Option Int) (k : Nat) (hk1 : 1 ≤ k)
    (hkm : (k : Int) ≤ mx.getD 10)
    (hfail : ∀ m : Nat, 1 ≤ m → m < k →
      (untl.evaluate (simMessages user agent prev m)).status ≠
        some Status.success)
    (hsucc : (untl.evaluate (simMessages user agent prev k)).status =
      some Status.success) :
    ∃ pairs : List (String × AIMessage),
      pairs.length = k ∧
      (userSimulation user untl mx).evaluate agent prev =
        Except.ok (pairs.flatMap (fun q =>
          [SegmentEvaluationPromise.message (Message.user q.1),
           SegmentEvaluationPromise.message q.2.toMessage]) ++
          [SegmentEvaluationPromise.eval untl
            (untl.evaluate (simMessages user agent prev k))]) ∧
      (pairs.flatMap (fun q =>
        [SegmentEvaluationPromise.message (Message.user q.1),
         SegmentEvaluationPromise.message (γ := γ) q.2.toMessage])).length =
        2 * k ∧
      (untl.evaluate (simMessages user agent prev k)).status =
        some Status.success := by
  obtain ⟨ps, hlen, hE⟩ := genEntries_pairs γ user agent prev 0 k
  have hloop := userSimLoop_success_aux user agent untl prev (mx.getD 10) k
    hsucc hkm k 0 [] (by omega) (by omega)
    (fun m hm1 hm2 => hfail m (by omega) hm2)
    (by simp [simMessages, flattenMessages])
  refine ⟨ps, hlen, ?_, ?_, hsucc⟩
  · simp only [userSimulation]
    rw [show (0 : Int) = ((0 : Nat) : Int) by simp]
    rw [hloop, hE]
    simp
  · rw [pairs_flatMap_length, hlen]

/-- A concrete criterion that succeeds once the transcript holds at least
four messages, used to break the simulation after two iterations. -/
def critLen : Criterion Unit :=
  ⟨3, "enough-messages", fun ms => ⟨(), none, none,
    if 4 ≤ ms.length then some Status.success else some Status.failure⟩⟩

/-- Witness for C2: with the constant user/agent and the length criterion
the loop breaks after exactly two of the ten allowed iterations. -/
theorem userSimulation_first_success_witness :
    ∃ pairs : List (String × AIMessage),
      pairs.length = 2 ∧
      (userSimulation userW critLen none).evaluate agentW [] =
        Except.ok (pairs.flatMap (fun q =>
          [SegmentEvaluationPromise.message (Message.user q.1),
           SegmentEvaluationPromise.message q.2.toMessage]) ++
          [SegmentEvaluationPromise.eval critLen
            (critLen.evaluate (simMessages userW agentW [] 2))]) ∧
      (pairs.flatMap (fun q =>
        [SegmentEvaluationPromise.message (Message.user q.1),
         SegmentEvaluationPromise.message (γ := Unit) q.2.toMessage])).length =
        2 * 2 ∧
      (critLen.evaluate (simMessages userW agentW [] 2)).status =
        some Status.success :=
  userSimulation_first_success userW agentW critLen [] none 2 (by decide)
    (by decide)
    (fun m h1 h2 => by
      have hm : m = 1 := by omega
      subst hm
      decide)
    (by decide)
